import Mathlib

/-!
Verification development for the marmara-web plate configurator
(src/components/Plate.tsx together with the shared type declarations).

The embedding below translates the procedural mesh generation and
texture-parametrization engine of the repository into Lean definitions:

* the cover-fit texture transform (lines 49-78 of Plate.tsx),
* the plate dimension table (lines 39-46),
* the geometry dispatch on the shape selector (lines 91-272); the
  PlateShape enum of the repository is a string enum with values
  "round", "square", "rectangular", so the selector is embedded as a
  String,
* the round revolve profile, its UV radii, the hybrid planar and polar
  UV assignment and the material groups (lines 95-241),
* the square and rectangular slump displacement (lines 244-271).

Floating point numbers of the source are modelled as exact rationals
where the quantities are discrete decisions (branch conditions, counts)
and as real numbers for the geometric payloads.
-/

/- Base dimension constant, BASE_SIZE = 3.5 in Plate.tsx line 36. -/
def BASE_SIZE : ℚ := 3.5

/- Plate world dimensions, Plate.tsx lines 39-46: the rectangular shape
gets (BASE_SIZE * 1.6, BASE_SIZE * 0.9), every other selector gets the
square dimensions (BASE_SIZE, BASE_SIZE). -/
def plateDims (shape : String) : ℚ × ℚ :=
  if shape = "rectangular" then (BASE_SIZE * 1.6, BASE_SIZE * 0.9)
  else (BASE_SIZE, BASE_SIZE)

/- Cover-fit transform, Plate.tsx lines 64-74: returns the pair
(repeat, offset), each a (u, v) pair, exactly as written to
topTexture.repeat and topTexture.offset. -/
def coverFit (plateAspect imgAspect : ℚ) : (ℚ × ℚ) × (ℚ × ℚ) :=
  if plateAspect > imgAspect then
    ((1, imgAspect / plateAspect), (0, (1 - imgAspect / plateAspect) / 2))
  else
    ((plateAspect / imgAspect, 1), ((1 - plateAspect / imgAspect) / 2, 0))

/- Effective image aspect ratio, Plate.tsx lines 58-62: starts at 1 and
is replaced by width/height only when the image object is present and
both pixel dimensions are nonzero (the truthiness test of the source). -/
def imgAspectOf (img : Option (ℕ × ℕ)) : ℚ :=
  match img with
  | some (w, h) => if w ≠ 0 ∧ h ≠ 0 then (w : ℚ) / (h : ℚ) else 1
  | none => 1

/- The whole texture fitting pipeline for one image input. -/
def coverFitFromImage (plateAspect : ℚ) (img : Option (ℕ × ℕ)) :
    (ℚ × ℚ) × (ℚ × ℚ) :=
  coverFit plateAspect (imgAspectOf img)

/- Descriptor of the geometry produced by the dispatch in the geometry
useMemo, Plate.tsx lines 91-272: the round branch builds the lathe
geometry, the else branch builds the slumped box with the dimensions of
plateDims and the liftHeight of line 255. -/
inductive GeometryKind where
  | latheRound : GeometryKind
  | slumpBox (width height liftHeight : ℚ) : GeometryKind
deriving DecidableEq, Repr

/- liftHeight constant, Plate.tsx line 255. -/
def liftHeightQ (shape : String) : ℚ :=
  if shape = "rectangular" then 0.02 else 0.035

/- Geometry dispatch, Plate.tsx lines 95 and 244: `if (shape ===
PlateShape.ROUND) { ... } else { ... }`.  The result type carries an
error channel so that the fail-fast behaviour asserted by the
specification is expressible; the source itself never throws, so every
selector produces an ok value. -/
def buildGeometry (shape : String) : Except String GeometryKind :=
  if shape = "round" then Except.ok GeometryKind.latheRound
  else Except.ok (GeometryKind.slumpBox (plateDims shape).1 (plateDims shape).2
    (liftHeightQ shape))

/- Round plate constants, Plate.tsx lines 96-103. -/
def radialSegments : ℕ := 128

def topSegments : ℕ := 64

def rimSteps : ℕ := 8

def bottomSegments : ℕ := 48

/- Number of profile points pushed by the three loops of Plate.tsx
lines 113-175: the top loop runs i = 0..topSegments, the rim loop runs
i = 1..rimSteps, the bottom loop runs i = 0..bottomSegments. -/
def numProfilePoints : ℕ := (topSegments + 1) + rimSteps + (bottomSegments + 1)

/- Vertices of THREE.LatheGeometry(points, segments): one ring of
points.length vertices for every angular station i = 0..segments. -/
def vertexCount : ℕ := (radialSegments + 1) * numProfilePoints

/- Index count of the lathe: segments * (points.length - 1) quads with
6 indices each. -/
def totalIndexCount : ℕ := radialSegments * (numProfilePoints - 1) * 6

/- Plate.tsx line 226. -/
def indicesPerRing : ℕ := radialSegments * 6

/- Plate.tsx lines 230-231. -/
def splitSegmentIndex : ℕ := topSegments + rimSteps

def indexSplit : ℕ := splitSegmentIndex * indicesPerRing

/- A material group record as installed by geo.addGroup: start index,
index count (none models the Infinity passed on line 237) and material
slot. -/
structure MaterialGroup where
  start : ℕ
  groupCount : Option ℕ
  materialIndex : ℕ
deriving DecidableEq, Repr

/- The group table installed by Plate.tsx lines 233-237. -/
def materialGroups : List MaterialGroup :=
  [⟨0, some indexSplit, 0⟩, ⟨indexSplit, none, 1⟩]

/- The set of index-buffer positions a group covers when rendered
against a buffer of the given total length: an Infinity count reaches
the end of the buffer, and every group is clamped to the buffer. -/
def groupRange (total : ℕ) (g : MaterialGroup) : Finset ℕ :=
  Finset.Ico g.start (min (g.start + g.groupCount.getD total) total)

/- Profile segment a given index-buffer position belongs to.  Modelled
from the spec: the face ordering inside THREE.LatheGeometry is external
library behaviour; the in-source comment on Plate.tsx lines 224-226
documents it as ring by ring with radialSegments * 6 indices per ring,
and the specification adopts the same layout. -/
def faceProfileSegment (p : ℕ) : ℕ := p / indicesPerRing

lemma numProfilePoints_eq : numProfilePoints = 122 := by decide

lemma indexSplit_eq : indexSplit = 55296 := by decide

lemma totalIndexCount_eq : totalIndexCount = 92928 := by decide

/- Real-valued round plate constants, Plate.tsx lines 89-98. -/
noncomputable def radius : ℝ := ((BASE_SIZE : ℚ) : ℝ) / 2

noncomputable def rimHeight : ℝ := 0.15

noncomputable def thickness : ℝ := 0.05

noncomputable def topY : ℝ := rimHeight

noncomputable def bottomY : ℝ := rimHeight - thickness

/- THREE.MathUtils.lerp(x, y, t) = x + (y - x) * t. -/
noncomputable def lerp (a b t : ℝ) : ℝ := a + (b - a) * t

/- Top surface profile point for loop counter i, Plate.tsx lines 113-132:
t = i / topSegments, x = max(t * radius, 0.001), y = t ^ 2 * rimHeight. -/
noncomputable def topPt (i : ℕ) : ℝ × ℝ :=
  (max (((i : ℝ) / (topSegments : ℝ)) * radius) 0.001,
   ((i : ℝ) / (topSegments : ℝ)) ^ 2 * rimHeight)

/- Rim profile point for loop counter i, Plate.tsx lines 138-156:
t = i / rimSteps, x = radius + sin(t * pi) * 0.0025,
y = lerp(topY, bottomY, t). -/
noncomputable def rimPt (i : ℕ) : ℝ × ℝ :=
  (radius + Real.sin (((i : ℝ) / (rimSteps : ℝ)) * Real.pi) * 0.0025,
   lerp topY bottomY ((i : ℝ) / (rimSteps : ℝ)))

/- Bottom profile point for loop counter i, Plate.tsx lines 160-175:
t = i / bottomSegments, x = lerp(radius, 0.001, t),
y = (x / radius) ^ 2 * rimHeight - thickness. -/
noncomputable def botPt (i : ℕ) : ℝ × ℝ :=
  (lerp radius 0.001 ((i : ℝ) / (bottomSegments : ℝ)),
   (lerp radius 0.001 ((i : ℝ) / (bottomSegments : ℝ)) / radius) ^ 2 * rimHeight
     - thickness)

/- The j-th profile point of the points array, obtained by unrolling
the three push loops: positions 0..topSegments come from the top loop,
the next rimSteps positions from the rim loop (counter j - topSegments),
and the remaining positions from the bottom loop. -/
noncomputable def nthPoint (j : ℕ) : ℝ × ℝ :=
  if j ≤ topSegments then topPt j
  else if j ≤ topSegments + rimSteps then rimPt (j - topSegments)
  else botPt (j - (topSegments + rimSteps + 1))

/- The points array itself, as pushed by Plate.tsx lines 113-175. -/
noncomputable def profilePoints : List (ℝ × ℝ) :=
  ((List.range (topSegments + 1)).map topPt)
    ++ ((List.range rimSteps).map (fun k => rimPt (k + 1)))
    ++ ((List.range (bottomSegments + 1)).map botPt)

/- Euclidean distance of THREE.Vector2.distanceTo. -/
noncomputable def dist2 (p q : ℝ × ℝ) : ℝ :=
  Real.sqrt ((p.1 - q.1) ^ 2 + (p.2 - q.2) ^ 2)

/- accumulatedRimDist after i iterations of the rim loop, Plate.tsx
lines 147-149: each step adds the Euclidean distance from the previous
profile point (the loop variable lastPos). -/
noncomputable def accumRim : ℕ → ℝ
  | 0 => 0
  | i + 1 => accumRim i + dist2 (nthPoint (topSegments + i + 1)) (nthPoint (topSegments + i))

noncomputable def totalRimArc : ℝ := accumRim rimSteps

/- Plate.tsx lines 184-185. -/
noncomputable def maxUVRadius : ℝ := radius + totalRimArc

noncomputable def diameterUV : ℝ := maxUVRadius * 2

/- The j-th entry of the uvRadii array, Plate.tsx lines 129, 153 and
174: the top loop pushes the physical x, the rim loop pushes
radius + accumulatedRimDist, the bottom loop pushes
radius + accumulatedRimDist + (radius - x) + 0.1 with the final
accumulated rim distance. -/
noncomputable def nthUVRadius (j : ℕ) : ℝ :=
  if j ≤ topSegments then (topPt j).1
  else if j ≤ topSegments + rimSteps then radius + accumRim (j - topSegments)
  else radius + totalRimArc + (radius - (botPt (j - (topSegments + rimSteps + 1))).1) + 0.1

/- Angular station of the lathe, THREE.LatheGeometry with phiStart = 0
and phiLength = 2 * pi: phi = i / segments * 2 * pi. -/
noncomputable def phi (i : ℕ) : ℝ := (i : ℝ) / (radialSegments : ℝ) * (2 * Real.pi)

/- Vertex position of the lathe at angular station i and profile ring j:
(x * sin phi, y, x * cos phi) for the profile point (x, y). -/
noncomputable def vpos (i j : ℕ) : ℝ × ℝ × ℝ :=
  ((nthPoint j).1 * Real.sin (phi i), (nthPoint j).2,
   (nthPoint j).1 * Real.cos (phi i))

/- The V texture coordinate THREE.LatheGeometry assigns along the
profile, read back by Plate.tsx line 197: j / (points.length - 1). -/
def originalV (j : ℕ) : ℚ := (j : ℚ) / ((numProfilePoints : ℚ) - 1)

/- Plate.tsx line 190. -/
def topSurfaceBoundary : ℚ :=
  (topSegments : ℚ) / ((topSegments : ℚ) + (rimSteps : ℚ) + (bottomSegments : ℚ))

/- Ring index recovered by the polar branch, Plate.tsx lines 210-211:
Math.round(originalV * (totalProfilePoints - 1)) clamped into
[0, totalProfilePoints - 1]. -/
def ringIndex (j : ℕ) : ℕ :=
  (max 0 (min (round (originalV j * ((numProfilePoints : ℚ) - 1)))
    ((numProfilePoints : ℤ) - 1))).toNat

/- Planar branch of the UV assignment, Plate.tsx lines 202-205:
u = x / diameterUV + 0.5, v = z / diameterUV + 0.5. -/
noncomputable def planarUV (i j : ℕ) : ℝ × ℝ :=
  ((vpos i j).1 / diameterUV + 0.5, (vpos i j).2.2 / diameterUV + 0.5)

/- atan2(y, x) as the complex argument of x + y i. -/
noncomputable def atan2 (y x : ℝ) : ℝ := Complex.arg ⟨x, y⟩

/- Polar branch of the UV assignment, Plate.tsx lines 209-219:
rUV = uvRadii[ringIndex], angle = atan2(z, x),
u = rUV * cos(angle) / diameterUV + 0.5,
v = rUV * sin(angle) / diameterUV + 0.5. -/
noncomputable def polarUV (i j : ℕ) : ℝ × ℝ :=
  (nthUVRadius (ringIndex j) * Real.cos (atan2 (vpos i j).2.2 (vpos i j).1)
      / diameterUV + 0.5,
   nthUVRadius (ringIndex j) * Real.sin (atan2 (vpos i j).2.2 (vpos i j).1)
      / diameterUV + 0.5)

/- The UV coordinate the loop of Plate.tsx lines 192-221 writes for the
vertex at angular station i and profile ring j: the planar branch when
originalV <= topSurfaceRatio + 0.005, the polar branch otherwise. -/
noncomputable def codeUV (i j : ℕ) : ℝ × ℝ :=
  if originalV j ≤ topSurfaceBoundary + 0.005 then planarUV i j else polarUV i j

/- Real-valued plate dimensions for the slump branch. -/
noncomputable def plateWidthR (shape : String) : ℝ := ((plateDims shape).1 : ℝ)

noncomputable def plateHeightR (shape : String) : ℝ := ((plateDims shape).2 : ℝ)

/- Half of the shorter plate dimension, Plate.tsx lines 252 and 262:
minDim = Math.min(width, height), used as minDim / 2. -/
noncomputable def halfMinDim (shape : String) : ℝ :=
  min (plateWidthR shape) (plateHeightR shape) / 2

/- Plate.tsx line 253: flatRadius = (minDim / 2) * 0.60. -/
noncomputable def flatRadius (shape : String) : ℝ := halfMinDim shape * 0.60

/- Plate.tsx line 255, as a real number. -/
noncomputable def liftHeight (shape : String) : ℝ :=
  if shape = "rectangular" then 0.02 else 0.035

/- Vertical lift added at a given planar radial distance, Plate.tsx
lines 261-265: zero inside the flat radius, otherwise the squared
normalized overshoot times liftHeight. -/
noncomputable def liftAt (shape : String) (dist : ℝ) : ℝ :=
  if flatRadius shape < dist then
    ((dist - flatRadius shape) / (halfMinDim shape - flatRadius shape)) ^ 2
      * liftHeight shape
  else 0

/- The slump displacement applied to one vertex (x, y, z) of the box
geometry, Plate.tsx lines 257-266: dist = sqrt(x * x + z * z), the
conditional lift is added to y, and x, z are written back untouched. -/
noncomputable def slumpVertex (shape : String) (v : ℝ × ℝ × ℝ) : ℝ × ℝ × ℝ :=
  (v.1, v.2.1 + liftAt shape (Real.sqrt (v.1 * v.1 + v.2.2 * v.2.2)), v.2.2)

/- Planar radial distance of the box corner from the center axis, used
to state the claimed monotonicity interval of the lift. -/
noncomputable def cornerDist (shape : String) : ℝ :=
  Real.sqrt ((plateWidthR shape / 2) ^ 2 + (plateHeightR shape / 2) ^ 2)

lemma plateDims_square : plateDims "square" = (BASE_SIZE, BASE_SIZE) := by
  rw [plateDims, if_neg (by decide)]

lemma plateDims_rect : plateDims "rectangular" = (BASE_SIZE * 1.6, BASE_SIZE * 0.9) := by
  rw [plateDims, if_pos rfl]

/-- Claim C2: the cover-fit computation returns, for positive aspect
ratios, repeat (1, imgAspect/plateAspect) and offset
(0, (1 - scale)/2) when the plate is relatively wider, and repeat
(plateAspect/imgAspect, 1) with offset ((1 - scale)/2, 0) otherwise;
in particular plateAspect 1.6 with imgAspect 1 yields scaleV 0.625 and
offsetV 0.1875, and plateAspect 0.9 with imgAspect 1 yields scaleU 0.9
and offsetU 0.05. -/
theorem C2_cover_fit (pa ia : ℚ) (hpa : 0 < pa) (hia : 0 < ia) :
    (ia < pa → coverFit pa ia = ((1, ia / pa), (0, (1 - ia / pa) / 2))) ∧
    (pa ≤ ia → coverFit pa ia = ((pa / ia, 1), ((1 - pa / ia) / 2, 0))) ∧
    coverFit 1.6 1 = ((1, 0.625), (0, 0.1875)) ∧
    coverFit 0.9 1 = ((0.9, 1), (0.05, 0)) := by
  refine ⟨fun h => ?_, fun h => ?_, ?_, ?_⟩
  · rw [coverFit, if_pos h]
  · rw [coverFit, if_neg (not_lt.mpr h)]
  · rw [coverFit, if_pos (by norm_num)]
    norm_num
  · rw [coverFit, if_neg (by norm_num)]
    norm_num

/-- Witness for C2 at the concrete aspect pair (1.6, 1). -/
theorem C2_cover_fit_witness :
    coverFit 1.6 1 = ((1, 0.625), (0, 0.1875)) :=
  (C2_cover_fit 1.6 1 (by norm_num) (by norm_num)).2.2.1

/-- Claim C9: a missing image or one with a zero pixel dimension makes
the cover-fit pipeline substitute aspect ratio 1 and produce the
well-defined 1:1 fit of coverFit with imgAspect 1; no division by the
zero dimension is ever performed. -/
theorem C9_degenerate_image (pa : ℚ) (img : Option (ℕ × ℕ))
    (hdeg : img = none ∨ ∃ w h, img = some (w, h) ∧ (w = 0 ∨ h = 0)) :
    imgAspectOf img = 1 ∧ coverFitFromImage pa img = coverFit pa 1 ∧
    coverFitFromImage 1 img = ((1, 1), (0, 0)) := by
  have h1 : imgAspectOf img = 1 := by
    rcases hdeg with h | ⟨w, ht, heq, hwh⟩
    · rw [h, imgAspectOf]
    · subst heq
      rcases hwh with rfl | rfl <;> simp [imgAspectOf]
  refine ⟨h1, ?_, ?_⟩
  · rw [coverFitFromImage, h1]
  · rw [coverFitFromImage, h1, coverFit, if_neg (by norm_num)]
    norm_num

/-- Witness for C9 on an image with zero pixel height. -/
theorem C9_degenerate_image_witness :
    imgAspectOf (some (5, 0)) = 1 ∧
    coverFitFromImage 2 (some (5, 0)) = coverFit 2 1 ∧
    coverFitFromImage 1 (some (5, 0)) = ((1, 1), (0, 0)) :=
  C9_degenerate_image 2 (some (5, 0)) (Or.inr ⟨5, 0, rfl, Or.inr rfl⟩)

/-- Counterexample to claim C8: the selector "hexagonal" is not a
member of the shape enumeration, yet the builder succeeds and returns
exactly the geometry it builds for "square" - it silently defaults
instead of failing with an invalid-configuration error. -/
theorem C8_counterexample :
    buildGeometry "hexagonal" =
      Except.ok (GeometryKind.slumpBox BASE_SIZE BASE_SIZE 0.035) ∧
    buildGeometry "hexagonal" = buildGeometry "square" := by
  constructor <;> rfl

/-- Claim C8 (amended): the mesh builder never fails fast; every
selector other than "round" and "rectangular" - recognized or not -
takes the box branch and silently builds the square-plate slump
geometry (square dimensions, liftHeight 0.035). -/
theorem C8_silent_default (shape : String) (h1 : shape ≠ "round")
    (h2 : shape ≠ "rectangular") :
    buildGeometry shape =
      Except.ok (GeometryKind.slumpBox BASE_SIZE BASE_SIZE 0.035) := by
  rw [buildGeometry, if_neg h1, liftHeightQ, if_neg h2, plateDims, if_neg h2]

/-- Witness for the amended C8 at the unrecognized selector. -/
theorem C8_silent_default_witness :
    buildGeometry "hexagonal" =
      Except.ok (GeometryKind.slumpBox BASE_SIZE BASE_SIZE 0.035) :=
  C8_silent_default "hexagonal" (by decide) (by decide)

lemma profilePoints_length : profilePoints.length = numProfilePoints := by
  simp [profilePoints, numProfilePoints]
  omega

/-- Counterexample to claim C3: the round revolve mesh does not have
(N_top + N_rim + N_bottom + 1) * (radialSegments + 1) vertices - the
profile array holds one more ring than that formula counts. -/
theorem C3_counterexample :
    vertexCount ≠ (topSegments + rimSteps + bottomSegments + 1) * (radialSegments + 1) := by
  decide

/-- Claim C3 (amended): the round revolve mesh has
(N_top + N_rim + N_bottom + 2) * (radialSegments + 1) vertices: the top
loop emits N_top + 1 points, the rim loop N_rim points, the bottom loop
N_bottom + 1 points - the rim/bottom junction profile point is emitted
twice - and the revolve duplicates one seam column. -/
theorem C3_vertex_count :
    vertexCount = (radialSegments + 1) * profilePoints.length ∧
    vertexCount = (topSegments + rimSteps + bottomSegments + 2) * (radialSegments + 1) := by
  refine ⟨?_, by decide⟩
  rw [profilePoints_length, vertexCount]

lemma indexSplit_le_total : indexSplit ≤ totalIndexCount := by decide

lemma groupRange_zero :
    groupRange totalIndexCount ⟨0, some indexSplit, 0⟩ = Finset.Ico 0 indexSplit := by
  rw [groupRange]
  show Finset.Ico 0 (min (0 + indexSplit) totalIndexCount) = Finset.Ico 0 indexSplit
  rw [Nat.zero_add, min_eq_left indexSplit_le_total]

lemma groupRange_rest :
    groupRange totalIndexCount ⟨indexSplit, none, 1⟩ =
      Finset.Ico indexSplit totalIndexCount := by
  rw [groupRange]
  show Finset.Ico indexSplit (min (indexSplit + totalIndexCount) totalIndexCount) =
    Finset.Ico indexSplit totalIndexCount
  rw [min_eq_right (Nat.le_add_left _ _)]

/-- Claim C4: the material-group table of the revolve mesh consists of
exactly the two records installed by the source, with the split value
(topSegments + rimSteps) * indicesPerRing and indicesPerRing =
radialSegments * 6; the two clamped ranges are contiguous, disjoint,
sorted, and together cover the index buffer exactly once; and, with the
ring-major face layout the source documents for the lathe, every index
of group 0 lies in a top or rim profile segment and every index of
group 1 lies at or beyond the rim/bottom split segment. -/
theorem C4_material_groups :
    materialGroups = [⟨0, some indexSplit, 0⟩, ⟨indexSplit, none, 1⟩] ∧
    indexSplit = (topSegments + rimSteps) * indicesPerRing ∧
    indicesPerRing = radialSegments * 6 ∧
    groupRange totalIndexCount ⟨0, some indexSplit, 0⟩ = Finset.Ico 0 indexSplit ∧
    groupRange totalIndexCount ⟨indexSplit, none, 1⟩ =
      Finset.Ico indexSplit totalIndexCount ∧
    Disjoint (groupRange totalIndexCount ⟨0, some indexSplit, 0⟩)
      (groupRange totalIndexCount ⟨indexSplit, none, 1⟩) ∧
    groupRange totalIndexCount ⟨0, some indexSplit, 0⟩ ∪
        groupRange totalIndexCount ⟨indexSplit, none, 1⟩ =
      Finset.range totalIndexCount ∧
    (∀ p ∈ groupRange totalIndexCount ⟨0, some indexSplit, 0⟩,
      faceProfileSegment p < topSegments + rimSteps) ∧
    (∀ p ∈ groupRange totalIndexCount ⟨indexSplit, none, 1⟩,
      topSegments + rimSteps ≤ faceProfileSegment p) := by
  refine ⟨rfl, rfl, rfl, groupRange_zero, groupRange_rest, ?_, ?_, ?_, ?_⟩
  · rw [groupRange_zero, groupRange_rest]
    exact Finset.Ico_disjoint_Ico_consecutive 0 indexSplit totalIndexCount
  · rw [groupRange_zero, groupRange_rest, Finset.range_eq_Ico]
    exact Finset.Ico_union_Ico_eq_Ico (Nat.zero_le _) indexSplit_le_total
  · intro p hp
    rw [groupRange_zero, Finset.mem_Ico] at hp
    rw [faceProfileSegment, Nat.div_lt_iff_lt_mul (by decide : 0 < indicesPerRing)]
    calc p < indexSplit := hp.2
      _ = (topSegments + rimSteps) * indicesPerRing := rfl
  · intro p hp
    rw [groupRange_rest, Finset.mem_Ico] at hp
    rw [faceProfileSegment, Nat.le_div_iff_mul_le (by decide : 0 < indicesPerRing)]
    calc (topSegments + rimSteps) * indicesPerRing = indexSplit := rfl
      _ ≤ p := hp.1

/-- Witness for C4: index position 0 lies in group 0 and belongs to a
top-surface profile segment. -/
theorem C4_material_groups_witness :
    (0 : ℕ) ∈ groupRange totalIndexCount ⟨0, some indexSplit, 0⟩ ∧
    faceProfileSegment 0 < topSegments + rimSteps := by
  have hmem : (0 : ℕ) ∈ groupRange totalIndexCount ⟨0, some indexSplit, 0⟩ := by
    rw [groupRange]
    exact Finset.mem_Ico.mpr ⟨Nat.le_refl 0, by decide⟩
  exact ⟨hmem, C4_material_groups.2.2.2.2.2.2.2.1 0 hmem⟩

lemma radius_eq : radius = 7 / 4 := by
  rw [radius, BASE_SIZE]
  norm_num

lemma radius_nonneg : (0 : ℝ) ≤ radius := by
  rw [radius_eq]
  norm_num

lemma accumRim_nonneg (i : ℕ) : 0 ≤ accumRim i := by
  induction i with
  | zero => simp [accumRim]
  | succ n ih =>
    have h := Real.sqrt_nonneg
      (((nthPoint (topSegments + n + 1)).1 - (nthPoint (topSegments + n)).1) ^ 2 +
       ((nthPoint (topSegments + n + 1)).2 - (nthPoint (topSegments + n)).2) ^ 2)
    simp only [accumRim, dist2]
    linarith

lemma diameterUV_ge : 2 * radius ≤ diameterUV := by
  have h := accumRim_nonneg rimSteps
  rw [diameterUV, maxUVRadius, totalRimArc]
  linarith

lemma diameterUV_pos : 0 < diameterUV := by
  have h := diameterUV_ge
  have h2 : (0 : ℝ) < radius := by rw [radius_eq]; norm_num
  linarith

lemma branch_iff (j : ℕ) :
    (originalV j ≤ topSurfaceBoundary + 0.005) ↔ j ≤ 65 := by
  have he : originalV j = (j : ℚ) / 121 := by
    rw [originalV]
    norm_num [numProfilePoints, topSegments, rimSteps, bottomSegments]
  have hb : topSurfaceBoundary + 0.005 = 323 / 600 := by
    rw [topSurfaceBoundary]
    norm_num [topSegments, rimSteps, bottomSegments]
  rw [he, hb, div_le_iff (by norm_num : (0 : ℚ) < 121)]
  constructor
  · intro h
    have h2 : (j : ℚ) < 66 := by nlinarith
    have h3 : j < 66 := by exact_mod_cast h2
    omega
  · intro h
    have h2 : (j : ℚ) ≤ 65 := by exact_mod_cast h
    nlinarith

lemma ringIndex_eq (j : ℕ) (hj : j ≤ 121) : ringIndex j = j := by
  rw [ringIndex]
  have he : originalV j * ((numProfilePoints : ℚ) - 1) = (j : ℚ) := by
    rw [originalV]
    exact div_mul_cancel₀ _
      (by norm_num [numProfilePoints, topSegments, rimSteps, bottomSegments])
  rw [he, round_natCast]
  have hn : ((numProfilePoints : ℤ) - 1) = 121 := by
    norm_num [numProfilePoints, topSegments, rimSteps, bottomSegments]
  rw [hn]
  omega

lemma nthPoint_64 : nthPoint 64 = (radius, rimHeight) := by
  have ht : ((64 : ℕ) : ℝ) / ((topSegments : ℕ) : ℝ) = 1 := by
    norm_num [topSegments]
  have hm : max ((1 : ℝ) * radius) 0.001 = radius := by
    rw [one_mul]
    exact max_eq_left (by rw [radius_eq]; norm_num)
  rw [nthPoint, if_pos (by decide : (64 : ℕ) ≤ topSegments), topPt, ht, hm]
  simp

lemma topPt_64_fst : (topPt 64).1 = radius := by
  have h := nthPoint_64
  rw [nthPoint, if_pos (by decide : (64 : ℕ) ≤ topSegments)] at h
  exact congrArg Prod.fst h

lemma nthPoint_65 : nthPoint 65 = rimPt 1 := by
  rw [nthPoint, if_neg (by decide), if_pos (by decide)]
  norm_num [topSegments]

lemma sin_pi8_nonneg : 0 ≤ Real.sin (Real.pi / 8) :=
  Real.sin_nonneg_of_nonneg_of_le_pi (by positivity) (by linarith [Real.pi_pos])

lemma rimPt_1_fst : (rimPt 1).1 = radius + Real.sin (Real.pi / 8) * 0.0025 := by
  have h : (((1 : ℕ) : ℝ) / ((rimSteps : ℕ) : ℝ)) * Real.pi = Real.pi / 8 := by
    rw [rimSteps]
    push_cast
    ring
  simp only [rimPt, h]

lemma rimPt_1_snd : (rimPt 1).2 = rimHeight - 1 / 160 := by
  simp only [rimPt, lerp, topY, bottomY, thickness, rimSteps]
  push_cast
  ring_nf

lemma nthUVRadius_65 :
    nthUVRadius 65 = radius + dist2 (nthPoint 65) (nthPoint 64) := by
  rw [nthUVRadius, if_neg (by decide), if_pos (by decide)]
  have h : accumRim (65 - topSegments) = dist2 (nthPoint 65) (nthPoint 64) := by
    show accumRim 1 = _
    simp [accumRim, topSegments]
  rw [h]

/-- Counterexample to claim C1: the vertex at angular station 0 on
profile ring 65 - the first rim-region ring - does not receive the
polar arc-length mapping; the tolerance in the branch condition admits
it into the planar region, and the two mappings genuinely differ there
because its UV radius exceeds its physical radius. -/
theorem C1_counterexample : codeUV 0 65 ≠ polarUV 0 65 := by
  have hbranch : codeUV 0 65 = planarUV 0 65 := by
    rw [codeUV, if_pos ((branch_iff 65).mpr (by norm_num))]
  have hphi : phi 0 = 0 := by simp [phi]
  have hvx : (vpos 0 65).1 = 0 := by
    rw [vpos, hphi, Real.sin_zero, mul_zero]
  have hvz : (vpos 0 65).2.2 = (nthPoint 65).1 := by
    show (nthPoint 65).1 * Real.cos (phi 0) = (nthPoint 65).1
    rw [hphi, Real.cos_zero, mul_one]
  have hp_pos : 0 < (nthPoint 65).1 := by
    rw [nthPoint_65, rimPt_1_fst, radius_eq]
    nlinarith [sin_pi8_nonneg]
  have h1 : Real.sin (Real.pi / 8) * 0.0025 ≤ 0.0025 := by
    nlinarith [Real.sin_le_one (Real.pi / 8), sin_pi8_nonneg]
  have e1 : (rimPt 1).1 - ((radius, rimHeight) : ℝ × ℝ).1 =
      Real.sin (Real.pi / 8) * 0.0025 := by
    rw [rimPt_1_fst]
    show radius + Real.sin (Real.pi / 8) * 0.0025 - radius = _
    ring
  have e2 : (rimPt 1).2 - ((radius, rimHeight) : ℝ × ℝ).2 = -(1 / 160) := by
    rw [rimPt_1_snd]
    show rimHeight - 1 / 160 - rimHeight = _
    ring
  have h2 : (1 / 160 : ℝ) ≤ dist2 (rimPt 1) (radius, rimHeight) := by
    rw [dist2, e1, e2]
    have h0 : ((1 : ℝ) / 160) ^ 2 ≤
        (Real.sin (Real.pi / 8) * 0.0025) ^ 2 + (-(1 / 160)) ^ 2 := by
      nlinarith [sq_nonneg (Real.sin (Real.pi / 8) * 0.0025)]
    calc (1 / 160 : ℝ) = Real.sqrt (((1 : ℝ) / 160) ^ 2) :=
          (Real.sqrt_sq (by norm_num)).symm
      _ ≤ _ := Real.sqrt_le_sqrt h0
  have hlt : (nthPoint 65).1 < nthUVRadius 65 := by
    rw [nthUVRadius_65, nthPoint_65, nthPoint_64, rimPt_1_fst]
    linarith
  have hri : ringIndex 65 = 65 := ringIndex_eq 65 (by norm_num)
  have hangle : atan2 (vpos 0 65).2.2 (vpos 0 65).1 = Real.pi / 2 := by
    rw [hvx, hvz, atan2]
    exact Complex.arg_eq_pi_div_two_iff.mpr ⟨rfl, hp_pos⟩
  have hpolar : (polarUV 0 65).2 = nthUVRadius 65 / diameterUV + 0.5 := by
    show nthUVRadius (ringIndex 65) *
        Real.sin (atan2 (vpos 0 65).2.2 (vpos 0 65).1) / diameterUV + 0.5 = _
    rw [hri, hangle, Real.sin_pi_div_two, mul_one]
  have hplanar : (planarUV 0 65).2 = (nthPoint 65).1 / diameterUV + 0.5 := by
    show (vpos 0 65).2.2 / diameterUV + 0.5 = _
    rw [hvz]
  have hv : (planarUV 0 65).2 < (polarUV 0 65).2 := by
    rw [hplanar, hpolar]
    have hd := diameterUV_pos
    have hq : (nthPoint 65).1 / diameterUV < nthUVRadius 65 / diameterUV :=
      (div_lt_div_right hd).mpr hlt
    linarith
  rw [hbranch]
  intro heq
  exact absurd (congrArg Prod.snd heq) (ne_of_lt hv)

/-- Claim C1 (amended): the hybrid UV assignment of the round mesh uses
the strict planar projection for every ring whose lathe profile
parameter is at or below the boundary ratio plus the 0.005 tolerance -
rings 0 through 65, that is the whole top region and additionally the
first rim ring - and the polar arc-length mapping for every later ring
(the remaining rim rings and all bottom rings); the switch point sits
one ring past the top/rim boundary ring. -/
theorem C1_hybrid_uv (i j : ℕ) :
    (j ≤ 65 → codeUV i j = planarUV i j) ∧
    (66 ≤ j → codeUV i j = polarUV i j) := by
  constructor
  · intro h
    rw [codeUV, if_pos ((branch_iff j).mpr h)]
  · intro h
    rw [codeUV, if_neg]
    rw [branch_iff]
    omega

/-- Witness for the amended C1 at a planar-region and a polar-region
ring. -/
theorem C1_hybrid_uv_witness :
    codeUV 0 64 = planarUV 0 64 ∧ codeUV 0 70 = polarUV 0 70 :=
  ⟨(C1_hybrid_uv 0 64).1 (by norm_num), (C1_hybrid_uv 0 70).2 (by norm_num)⟩

lemma nthUVRadius_64 : nthUVRadius 64 = radius := by
  rw [nthUVRadius, if_pos (by decide)]
  exact topPt_64_fst

/-- Claim C6: on the shared ring at the top/rim boundary (profile ring
64), whose physical radius and UV radius both equal the plate radius,
the planar-branch UV pair and the polar-branch UV pair agree within a
small tolerance at every angular station (they are in fact equal). -/
theorem C6_boundary_ring_uv (i : ℕ) :
    (nthPoint 64).1 = radius ∧ nthUVRadius 64 = radius ∧
    |(planarUV i 64).1 - (polarUV i 64).1| ≤ 1 / 1000000 ∧
    |(planarUV i 64).2 - (polarUV i 64).2| ≤ 1 / 1000000 := by
  have hr0 : (0 : ℝ) < radius := by rw [radius_eq]; norm_num
  have hx64 : (nthPoint 64).1 = radius := by rw [nthPoint_64]
  have hvx : (vpos i 64).1 = radius * Real.sin (phi i) := by
    show (nthPoint 64).1 * Real.sin (phi i) = _
    rw [hx64]
  have hvz : (vpos i 64).2.2 = radius * Real.cos (phi i) := by
    show (nthPoint 64).1 * Real.cos (phi i) = _
    rw [hx64]
  have hnormsq : Complex.normSq
      ⟨radius * Real.sin (phi i), radius * Real.cos (phi i)⟩ = radius ^ 2 := by
    rw [Complex.normSq_mk]
    have hsc := Real.sin_sq_add_cos_sq (phi i)
    linear_combination (radius ^ 2) * hsc
  have habs : Complex.abs
      ⟨radius * Real.sin (phi i), radius * Real.cos (phi i)⟩ = radius := by
    rw [Complex.abs_apply, hnormsq, Real.sqrt_sq radius_nonneg]
  have hw0 : (⟨radius * Real.sin (phi i), radius * Real.cos (phi i)⟩ : ℂ) ≠ 0 := by
    intro h0
    rw [h0, map_zero] at habs
    exact absurd habs.symm (ne_of_gt hr0)
  have hcos : Real.cos (atan2 (vpos i 64).2.2 (vpos i 64).1) = Real.sin (phi i) := by
    rw [hvx, hvz, atan2, Complex.cos_arg hw0, habs]
    exact mul_div_cancel_left₀ _ (ne_of_gt hr0)
  have hsin : Real.sin (atan2 (vpos i 64).2.2 (vpos i 64).1) = Real.cos (phi i) := by
    rw [hvx, hvz, atan2, Complex.sin_arg, habs]
    exact mul_div_cancel_left₀ _ (ne_of_gt hr0)
  refine ⟨hx64, nthUVRadius_64, ?_, ?_⟩
  · have hu : (polarUV i 64).1 = (planarUV i 64).1 := by
      show nthUVRadius (ringIndex 64) *
          Real.cos (atan2 (vpos i 64).2.2 (vpos i 64).1) / diameterUV + 0.5 =
        (vpos i 64).1 / diameterUV + 0.5
      rw [ringIndex_eq 64 (by norm_num), nthUVRadius_64, hcos, hvx]
    rw [hu, sub_self, abs_zero]
    norm_num
  · have hv : (polarUV i 64).2 = (planarUV i 64).2 := by
      show nthUVRadius (ringIndex 64) *
          Real.sin (atan2 (vpos i 64).2.2 (vpos i 64).1) / diameterUV + 0.5 =
        (vpos i 64).2.2 / diameterUV + 0.5
      rw [ringIndex_eq 64 (by norm_num), nthUVRadius_64, hsin, hvz]
    rw [hv, sub_self, abs_zero]
    norm_num

/-- Claim C7: every vertex generated from the top-surface region of the
profile (rings 0 through topSegments, all of physical radial distance
at most the plate radius) receives a UV coordinate inside the unit
square. -/
theorem C7_top_uv_unit (i j : ℕ) (hj : j ≤ topSegments) :
    0 ≤ (codeUV i j).1 ∧ (codeUV i j).1 ≤ 1 ∧
    0 ≤ (codeUV i j).2 ∧ (codeUV i j).2 ≤ 1 := by
  have h65 : j ≤ 65 := le_trans hj (by decide)
  have hb : codeUV i j = planarUV i j := by
    rw [codeUV, if_pos ((branch_iff j).mpr h65)]
  have hx_nonneg : 0 ≤ (nthPoint j).1 := by
    rw [nthPoint, if_pos hj, topPt]
    exact le_trans (by norm_num) (le_max_right _ _)
  have hx_le : (nthPoint j).1 ≤ radius := by
    rw [nthPoint, if_pos hj, topPt]
    apply max_le
    · have h1 : ((j : ℝ) / ((topSegments : ℕ) : ℝ)) ≤ 1 := by
        rw [div_le_one (by norm_num [topSegments] : (0 : ℝ) < ((topSegments : ℕ) : ℝ))]
        exact_mod_cast hj
      nlinarith [radius_nonneg]
    · rw [radius_eq]; norm_num
  have hbound : ∀ t : ℝ, |t| ≤ 1 →
      0 ≤ (nthPoint j).1 * t / diameterUV + 0.5 ∧
      (nthPoint j).1 * t / diameterUV + 0.5 ≤ 1 := by
    intro t ht
    have hd := diameterUV_pos
    have hd2 := diameterUV_ge
    have habs : |(nthPoint j).1 * t| ≤ radius := by
      rw [abs_mul, abs_of_nonneg hx_nonneg]
      calc (nthPoint j).1 * |t| ≤ (nthPoint j).1 * 1 :=
            mul_le_mul_of_nonneg_left ht hx_nonneg
        _ = (nthPoint j).1 := mul_one _
        _ ≤ radius := hx_le
    have h1 : |(nthPoint j).1 * t / diameterUV| ≤ 1 / 2 := by
      rw [abs_div, abs_of_pos hd, div_le_iff hd]
      linarith
    have h2 := abs_le.mp h1
    constructor <;> linarith [h2.1, h2.2]
  rw [hb]
  have hu := hbound (Real.sin (phi i))
    (abs_le.mpr ⟨Real.neg_one_le_sin _, Real.sin_le_one _⟩)
  have hvv := hbound (Real.cos (phi i))
    (abs_le.mpr ⟨Real.neg_one_le_cos _, Real.cos_le_one _⟩)
  exact ⟨hu.1, hu.2, hvv.1, hvv.2⟩

/-- Witness for C7 at the center vertex of the first angular station. -/
theorem C7_top_uv_unit_witness :
    0 ≤ (codeUV 0 0).1 ∧ (codeUV 0 0).1 ≤ 1 ∧
    0 ≤ (codeUV 0 0).2 ∧ (codeUV 0 0).2 ≤ 1 :=
  C7_top_uv_unit 0 0 (Nat.zero_le _)

lemma plateDims_w_pos (shape : String) : 0 < (plateDims shape).1 := by
  by_cases h : shape = "rectangular" <;> norm_num [plateDims, h, BASE_SIZE]

lemma plateDims_h_pos (shape : String) : 0 < (plateDims shape).2 := by
  by_cases h : shape = "rectangular" <;> norm_num [plateDims, h, BASE_SIZE]

lemma halfMinDim_pos (shape : String) : 0 < halfMinDim shape := by
  rw [halfMinDim, plateWidthR, plateHeightR]
  exact div_pos (lt_min (by exact_mod_cast plateDims_w_pos shape)
    (by exact_mod_cast plateDims_h_pos shape)) (by norm_num)

lemma flatRadius_lt (shape : String) : flatRadius shape < halfMinDim shape := by
  rw [flatRadius]
  nlinarith [halfMinDim_pos shape]

lemma liftHeight_pos (shape : String) : 0 < liftHeight shape := by
  by_cases h : shape = "rectangular" <;> norm_num [liftHeight, h]

lemma halfMinDim_le_corner (shape : String) : halfMinDim shape ≤ cornerDist shape := by
  rw [cornerDist]
  have h0 : 0 ≤ halfMinDim shape := (halfMinDim_pos shape).le
  have h1 : halfMinDim shape ≤ plateWidthR shape / 2 := by
    rw [halfMinDim]
    have := min_le_left (plateWidthR shape) (plateHeightR shape)
    linarith
  have h2 : halfMinDim shape ^ 2 ≤
      (plateWidthR shape / 2) ^ 2 + (plateHeightR shape / 2) ^ 2 := by
    nlinarith [sq_nonneg (plateHeightR shape / 2)]
  calc halfMinDim shape = Real.sqrt (halfMinDim shape ^ 2) := (Real.sqrt_sq h0).symm
    _ ≤ _ := Real.sqrt_le_sqrt h2

lemma liftAt_eq_max_form (shape : String) :
    liftAt shape = fun d =>
      (max (d - flatRadius shape) 0 / (halfMinDim shape - flatRadius shape)) ^ 2
        * liftHeight shape := by
  funext d
  rw [liftAt]
  by_cases h : flatRadius shape < d
  · rw [if_pos h, max_eq_left (by linarith)]
  · rw [if_neg h]
    push_neg at h
    rw [max_eq_right (by linarith)]
    simp

lemma liftAt_continuous (shape : String) : Continuous (liftAt shape) := by
  rw [liftAt_eq_max_form]
  exact ((((continuous_id.sub continuous_const).max continuous_const).div_const
    _).pow 2).mul continuous_const

lemma liftAt_strictMonoOn (shape : String) :
    StrictMonoOn (liftAt shape) (Set.Icc (flatRadius shape) (cornerDist shape)) := by
  intro a ha b hb hab
  have hfr := flatRadius_lt shape
  have hLH := liftHeight_pos shape
  have hc : 0 < halfMinDim shape - flatRadius shape := by linarith
  have hbgt : flatRadius shape < b := lt_of_le_of_lt ha.1 hab
  simp only [liftAt]
  rw [if_pos hbgt]
  by_cases hagt : flatRadius shape < a
  · rw [if_pos hagt]
    have h1 : 0 ≤ (a - flatRadius shape) / (halfMinDim shape - flatRadius shape) :=
      div_nonneg (by linarith) hc.le
    have h2 : (a - flatRadius shape) / (halfMinDim shape - flatRadius shape) <
        (b - flatRadius shape) / (halfMinDim shape - flatRadius shape) :=
      (div_lt_div_right hc).mpr (by linarith)
    have h3 := pow_lt_pow_left h2 h1 (two_ne_zero)
    exact mul_lt_mul_of_pos_right h3 hLH
  · rw [if_neg hagt]
    push_neg at hagt
    exact mul_pos (pow_pos (div_pos (by linarith) hc) 2) hLH

/-- Claim C5: the slump lift of the square and rectangular plates is
zero at or below the flat radius (60 percent of the shorter half
dimension), equals the squared normalized overshoot times liftHeight
beyond it, is continuous at the flat radius, strictly increases from
the flat radius out to the corner, and the rectangular liftHeight
(0.02) is strictly smaller than the square one (0.035). -/
theorem C5_slump_lift (shape : String) :
    (∀ dist : ℝ, dist ≤ flatRadius shape → liftAt shape dist = 0) ∧
    (∀ dist : ℝ, flatRadius shape < dist →
      liftAt shape dist =
        ((dist - flatRadius shape) / (halfMinDim shape - flatRadius shape)) ^ 2
          * liftHeight shape) ∧
    ContinuousAt (liftAt shape) (flatRadius shape) ∧
    flatRadius shape < cornerDist shape ∧
    StrictMonoOn (liftAt shape) (Set.Icc (flatRadius shape) (cornerDist shape)) ∧
    liftHeight "rectangular" < liftHeight "square" := by
  refine ⟨?_, ?_, ?_, ?_, liftAt_strictMonoOn shape, ?_⟩
  · intro d hd
    rw [liftAt, if_neg (not_lt.mpr hd)]
  · intro d hd
    rw [liftAt, if_pos hd]
  · exact (liftAt_continuous shape).continuousAt
  · exact lt_of_lt_of_le (flatRadius_lt shape) (halfMinDim_le_corner shape)
  · rw [liftHeight, liftHeight, if_pos rfl, if_neg (by decide)]
    norm_num

lemma flatRadius_square : flatRadius "square" = 1.05 := by
  rw [flatRadius, halfMinDim, plateWidthR, plateHeightR, plateDims_square]
  norm_num [BASE_SIZE]

lemma flatRadius_rect : flatRadius "rectangular" = 0.945 := by
  rw [flatRadius, halfMinDim, plateWidthR, plateHeightR, plateDims_rect]
  norm_num [BASE_SIZE]

/-- Witness for C5: one distance inside the flat region of the square
plate and one beyond the flat radius of the rectangular platter. -/
theorem C5_slump_lift_witness :
    liftAt "square" 1 = 0 ∧
    liftAt "rectangular" 2 =
      ((2 - flatRadius "rectangular") /
        (halfMinDim "rectangular" - flatRadius "rectangular")) ^ 2
        * liftHeight "rectangular" := by
  constructor
  · exact (C5_slump_lift "square").1 1 (by rw [flatRadius_square]; norm_num)
  · exact (C5_slump_lift "rectangular").2.1 2 (by rw [flatRadius_rect]; norm_num)

/-- Claim C10: the slump displacement changes only the vertical
coordinate of a vertex - the x and z coordinates are returned exactly
unchanged - and a vertex whose planar radial distance is at most the
flat radius is returned entirely unchanged. -/
theorem C10_slump_frame (shape : String) (v : ℝ × ℝ × ℝ) :
    (slumpVertex shape v).1 = v.1 ∧ (slumpVertex shape v).2.2 = v.2.2 ∧
    (Real.sqrt (v.1 * v.1 + v.2.2 * v.2.2) ≤ flatRadius shape →
      slumpVertex shape v = v) := by
  obtain ⟨x, y, z⟩ := v
  refine ⟨rfl, rfl, fun h => ?_⟩
  simp only [slumpVertex, liftAt]
  rw [if_neg (not_lt.mpr h)]
  simp

/-- Witness for C10 at a vertex strictly inside the flat region of the
square plate. -/
theorem C10_slump_frame_witness :
    Real.sqrt ((1 : ℝ) * 1 + 0 * 0) ≤ flatRadius "square" ∧
    slumpVertex "square" (1, 2, 0) = (1, 2, 0) := by
  have h : Real.sqrt ((1 : ℝ) * 1 + 0 * 0) ≤ flatRadius "square" := by
    rw [show ((1 : ℝ) * 1 + 0 * 0) = 1 by norm_num, Real.sqrt_one, flatRadius_square]
    norm_num
  exact ⟨h, (C10_slump_frame "square" (1, 2, 0)).2.2 h⟩

/- Coherence of the two renderings of the profile array: the indexed
form nthPoint agrees with the pushed list profilePoints at every valid
position. -/
lemma profilePoints_getElem (j : ℕ) (hj : j < 122) :
    profilePoints[j]? = some (nthPoint j) := by
  rw [profilePoints, nthPoint]
  simp only [show topSegments = 64 from rfl, show rimSteps = 8 from rfl,
    show bottomSegments = 48 from rfl]
  rw [List.getElem?_append, List.getElem?_append]
  simp only [List.length_append, List.length_map, List.length_range]
  by_cases h1 : j ≤ 64
  · rw [if_pos h1, if_pos (by omega), if_pos (by omega), List.getElem?_map]
    rw [List.getElem?_range (by omega)]
    rfl
  · rw [if_neg h1]
    by_cases h2 : j ≤ 64 + 8
    · rw [if_pos h2, if_pos (by omega), if_neg (by omega), List.getElem?_map]
      rw [List.getElem?_range (by omega)]
      show some (rimPt (j - 65 + 1)) = some (rimPt (j - 64))
      have he : j - 65 + 1 = j - 64 := by omega
      rw [he]
    · rw [if_neg h2, if_neg (by omega), List.getElem?_map]
      rw [List.getElem?_range (by omega)]
      rfl
